import Mathlib

/-!
Verification of the trading-scanner repository (indicator computations,
pattern detectors, condition-set evaluation, alert cooldown, position
lifecycle fragments and the backtest step loop).

Prices, volumes and wall-clock times are embedded as rationals (`ℚ`);
the Python code computes with IEEE floats, and every comparison or exact
value the claims mention is float-representable, so the rational model
is the standard idealisation.  Python `int(x)` truncation is `pyInt`,
`f"{x:.kf}"` formatting is `fmtFixed k` (round-half-up; all formatted
values in the claims are exact multiples of `10^(-k)`, where every
rounding convention agrees).
-/

/-- One OHLCV candle, as stored in the Python bar dictionaries
(`'open'/'high'/'low'/'close'/'volume'`).  `open` is a Lean keyword, so
the field is written `«open»`. -/
structure Bar where
  «open» : ℚ
  high : ℚ
  low : ℚ
  close : ℚ
  volume : ℚ
deriving DecidableEq, Repr

instance : Inhabited Bar := ⟨⟨0, 0, 0, 0, 0⟩⟩

/-- Python `int(x)`: truncation toward zero.  A rational is stored
reduced with a positive denominator, so `Int.tdiv` of numerator by
denominator is exactly that truncation. -/
def pyInt (q : ℚ) : ℤ :=
  q.num.tdiv q.den

/-- `⌊q⌋` computed on the numerator/denominator representation
(`Int.fdiv` rounds toward negative infinity). -/
def ratFloor (q : ℚ) : ℤ :=
  q.num.fdiv q.den

/-- Python `f"{q:.df}"`: fixed-point rendering with `d` decimal digits
(idealised with round-half-up; the claims only format exact multiples of
`10^(-d)`, where every rounding convention agrees). -/
def fmtFixed (d : ℕ) (q : ℚ) : String :=
  let n : ℤ := ratFloor (q * (10 : ℚ) ^ d + 1/2)
  let sign := if n < 0 then "-" else ""
  let a := n.natAbs
  if d = 0 then sign ++ toString a
  else
    let ip := a / 10 ^ d
    let fp := a % 10 ^ d
    let fs := toString fp
    let fs := String.mk (List.replicate (d - fs.length) '0') ++ fs
    sign ++ toString ip ++ "." ++ fs

namespace Algo
/-!
Shallow embedding of the pure analysis functions of
`src/Self/RossCameron-Algo.py`.
-/

/-- `calculate_macd` of `RossCameron-Algo.py` (lines 264-298): the EMA
recurrence `ema[i] = close[i]*α + ema[i-1]*(1-α)` continued from the
running value `prev`. -/
def emaFrom (alpha : ℚ) (prev : ℚ) : List ℚ → List ℚ
  | [] => []
  | c :: cs =>
    let e := c * alpha + prev * (1 - alpha)
    e :: emaFrom alpha e cs

/-- The full EMA series, seeded at the first element
(`ema[0] = closes[0]`). -/
def emaSeries (alpha : ℚ) : List ℚ → List ℚ
  | [] => []
  | c :: cs => c :: emaFrom alpha c cs

/-- `calculate_macd(closes, fast=12, slow=26, signal=9)`: `None` when
fewer than `slow` closes, otherwise the last entries of the MACD line
(`ema_fast - ema_slow`), signal line (EMA of the MACD line, seeded at
its first entry) and histogram. -/
def calculate_macd (closes : List ℚ) (fast : ℕ := 12) (slow : ℕ := 26)
    (signal : ℕ := 9) : Option (ℚ × ℚ × ℚ) :=
  if closes.length < slow then none
  else
    let alpha_fast : ℚ := 2 / (fast + 1)
    let alpha_slow : ℚ := 2 / (slow + 1)
    let ema_fast := emaSeries alpha_fast closes
    let ema_slow := emaSeries alpha_slow closes
    let macd_line := List.zipWith (· - ·) ema_fast ema_slow
    let alpha_signal : ℚ := 2 / (signal + 1)
    let signal_line := emaSeries alpha_signal macd_line
    let histogram := List.zipWith (· - ·) macd_line signal_line
    some (macd_line.getLastD 0, signal_line.getLastD 0, histogram.getLastD 0)

/-- `check_macd_positive(bars)` (lines 301-320): requires 30 bars of
history, then demands MACD line strictly above the signal line and a
strictly positive histogram. -/
def check_macd_positive (bars : List Bar) : Bool × String :=
  if bars.length < 30 then (false, "Not enough data")
  else
    match calculate_macd (bars.map Bar.close) with
    | none => (false, "MACD calculation failed")
    | some (macd, signal, histogram) =>
      if macd ≤ signal then
        (false, "MACD negative: " ++ fmtFixed 4 macd ++ " <= " ++ fmtFixed 4 signal)
      else if histogram ≤ 0 then
        (false, "MACD crossing down: histogram=" ++ fmtFixed 4 histogram)
      else
        (true, "MACD positive: " ++ fmtFixed 4 macd ++ " > " ++ fmtFixed 4 signal
          ++ ", histogram=" ++ fmtFixed 4 histogram)

/-- `calculate_vwap(bars)` (lines 402-424): `None` below two bars or on
zero total volume, otherwise `Σ(typical·volume)/Σ(volume)` with
`typical = (high+low+close)/3`, accumulated by the Python loop. -/
def calculate_vwap (bars : List Bar) : Option ℚ :=
  if bars.length < 2 then none
  else
    let total_pv := bars.foldl (fun acc b => acc + (b.high + b.low + b.close) / 3 * b.volume) 0
    let total_volume := bars.foldl (fun acc b => acc + b.volume) 0
    if total_volume = 0 then none
    else some (total_pv / total_volume)

/-- The maximum of the `high`s of a candle window (Python `max(highs)`;
the callers guard non-emptiness, the empty case is junk `0`). -/
def maxHigh (recent : List Bar) : ℚ :=
  match recent.map Bar.high with
  | [] => 0
  | h :: t => t.foldl max h

/-- `len(recent) - 1 - highs[::-1].index(max_high)`: the index of the
last occurrence of the maximum high. -/
def maxHighIdx (recent : List Bar) : ℕ :=
  recent.length - 1 -
    ((recent.map Bar.high).reverse.findIdx (fun x => decide (x = maxHigh recent)))

/-- The pullback scan of `detect_pullback_and_new_high`: runs over the
lows after the peak carrying the running minimum (seeded at the peak
high) and a flag recording whether any strictly lower low was seen. -/
def pullbackScan (cur : ℚ) (det : Bool) : List ℚ → ℚ × Bool
  | [] => (cur, det)
  | l :: ls =>
    if l < cur then pullbackScan l true ls
    else pullbackScan cur det ls

/-- `detect_pullback_and_new_high(bars)` (lines 323-369).  Returns
`(success, message, pullback_low)`. -/
def detect_pullback_and_new_high (bars : List Bar) : Bool × String × Option ℚ :=
  if bars.length < 30 then (false, "Not enough bars", none)
  else
    let recent := bars.drop (bars.length - 60)
    let max_high := maxHigh recent
    let max_high_idx := maxHighIdx recent
    if recent.length - 2 ≤ max_high_idx then
      (false, "No pullback detected yet (still at high)", none)
    else
      let scan := pullbackScan max_high false ((recent.drop (max_high_idx + 1)).map Bar.low)
      if scan.2 = false then (false, "No pullback after surge", none)
      else
        let pullback_low := scan.1
        let last_bar := recent.getLastD default
        let second_last_bar := recent.dropLast.getLastD default
        if second_last_bar.high < last_bar.high ∧ last_bar.«open» < last_bar.close then
          let pullback_pct := (max_high - pullback_low) / max_high * 100
          (true, "Pattern detected: surge to " ++ fmtFixed 2 max_high ++ ", pullback to "
            ++ fmtFixed 2 pullback_low ++ " (-" ++ fmtFixed 1 pullback_pct ++ "%), new high at "
            ++ fmtFixed 2 last_bar.high, some pullback_low)
        else
          (false, "Waiting for first candle making new high", none)

/-- `calculate_position_size(account_balance, entry_price, stop_price,
risk_pct=0.10)` (lines 442-457).  Despite its name it ignores the stop
price and the risk percentage: it sizes a fixed simulated $200 trade
(`int(200.0 / entry_price)`, minimum one share), returning 0 only when
the balance is missing or non-positive. -/
def calculate_position_size (account_balance : Option ℚ) (entry_price : ℚ)
    (stop_price : ℚ) (risk_pct : ℚ := 1/10) : ℤ :=
  match account_balance with
  | none => 0
  | some b =>
    if b ≤ 0 then 0
    else
      let simulated_trade_size : ℚ := 200
      let shares := pyInt (simulated_trade_size / entry_price)
      max shares 1

/-- `check_dynamic_exit(app, symbol)` (lines 460-480); the two reads of
`app.bars` (`symbol not in app.bars`, `app.bars[symbol]`) are embedded
as an `Option (List Bar)` argument. -/
def check_dynamic_exit (bars? : Option (List Bar)) : Bool × String :=
  match bars? with
  | none => (false, "Insufficient bar data for exit check")
  | some bars =>
    if bars.length < 2 then (false, "Insufficient bar data for exit check")
    else
      let latest_bar := bars.getLastD default
      let previous_bar := bars.dropLast.getLastD default
      if latest_bar.low < previous_bar.low then
        (true, "Candle Under Candle detected: Latest low $" ++ fmtFixed 2 latest_bar.low
          ++ " < Previous low $" ++ fmtFixed 2 previous_bar.low)
      else
        (false, "No exit signal: Latest low $" ++ fmtFixed 2 latest_bar.low
          ++ " >= Previous low $" ++ fmtFixed 2 previous_bar.low)

/-- The per-symbol slice of the `TradingAlgo` tracking dictionaries that
the stale-pending-order logic of `check_and_trade` touches. -/
structure SymbolState where
  pending_entry : Bool
  pending_entry_time : Option ℚ
  entry_order_id : Option ℕ
  premarket_entry : Bool
  stop_price : Option ℚ
  profit_target_price : Option ℚ
deriving DecidableEq, Repr

/-- The stale-pending-order fragment of `check_and_trade`
(`RossCameron-Algo.py` lines 524-545): with a pending entry older than
300 seconds, cancel the entry order and clear all pending tracking;
otherwise report `PENDING ENTRY` and skip.  Returns the new state, the
list of cancelled order ids, and whether the caller proceeds to the
condition checks (`false` = early `PENDING ENTRY` return). -/
def stale_pending_check (st : SymbolState) (now : ℚ) : SymbolState × List ℕ × Bool :=
  if st.pending_entry then
    match st.pending_entry_time with
    | some t0 =>
      if now - t0 > 300 then
        let cancels := match st.entry_order_id with
          | some oid => [oid]
          | none => []
        ({ st with entry_order_id := none, pending_entry := false,
                   pending_entry_time := none, premarket_entry := false,
                   stop_price := none, profit_target_price := none },
         cancels, true)
      else (st, [], false)
    | none => (st, [], false)
  else (st, [], true)

end Algo

namespace Scanner
/-!
Shallow embedding of `src/Self/AlertScanner/conditions.py`,
`realtime_scanner.py` and the reason extraction of
`backtest_scanner.py`.  Timestamps are rationals (seconds).
-/

/-- `MarketData` of `conditions.py`: the snapshot a condition set is
evaluated against. -/
structure MarketData where
  symbol : String
  price : ℚ
  volume : ℚ
  vwap : ℚ
  timestamp : ℚ
  price_history : List (ℚ × ℚ)
  volume_history : List (ℚ × ℚ)

/-- An `AlertCondition` subclass instance: its `check` method, embedded
as a pure function returning the pass verdict together with the value
the method writes into `self.triggered_reason`, plus the current value
of that mutable attribute. -/
structure AlertCondition where
  name : String
  check : MarketData → Bool × String
  triggered_reason : String

/-- `PriceAboveVWAPCondition.check` (`conditions.py` lines 63-74). -/
def PriceAboveVWAPCondition : AlertCondition where
  name := "Price Above VWAP"
  check := fun data =>
    if data.vwap < data.price then
      (true, "Price $" ++ fmtFixed 2 data.price ++ " > VWAP $" ++ fmtFixed 2 data.vwap)
    else (false, "")
  triggered_reason := ""

/-- `AlertConditionSet`: ordered conditions plus the
`triggered_reasons` accumulator rebuilt by each `check_all` cycle. -/
structure AlertConditionSet where
  name : String
  conditions : List AlertCondition
  triggered_reasons : List String

/-- The loop body of `AlertConditionSet.check_all` (`conditions.py`
lines 192-210): evaluate in registration order, record each passing
condition's fresh reason, and return `False` at the first failure
without touching the remaining conditions. -/
def check_all_go (data : MarketData) : List AlertCondition → Bool × List AlertCondition × List String
  | [] => (true, [], [])
  | c :: rest =>
    let res := c.check data
    let c' := { c with triggered_reason := res.2 }
    if res.1 then
      let r := check_all_go data rest
      (r.1, c' :: r.2.1, res.2 :: r.2.2)
    else
      (false, c' :: rest, [])

/-- `AlertConditionSet.check_all(data)`: resets `triggered_reasons` and
runs the conditions, returning the verdict and the mutated set. -/
def check_all (cs : AlertConditionSet) (data : MarketData) : Bool × AlertConditionSet :=
  let r := check_all_go data cs.conditions
  (r.1, { cs with conditions := r.2.1, triggered_reasons := r.2.2 })

/-- `AlertConditionSet.get_trigger_summary()`. -/
def get_trigger_summary (cs : AlertConditionSet) : String :=
  String.intercalate " | " cs.triggered_reasons

/-- `BacktestAlertScanner._extract_condition_reasons`
(`backtest_scanner.py` lines 390-396): reads each condition's
`triggered_reason` attribute directly. -/
def extract_condition_reasons (cs : AlertConditionSet) : List String :=
  cs.conditions.filterMap fun c =>
    if c.triggered_reason = "" then none
    else some (c.name ++ ": " ++ c.triggered_reason)

/-- The alert-relevant state of a `RealtimeSymbolMonitor`
(`realtime_scanner.py`): its condition set, the last alert timestamp
and the cooldown (default 5 seconds). -/
structure RealtimeSymbolMonitor where
  condition_set : AlertConditionSet
  last_alert_time : Option ℚ
  alert_cooldown_seconds : ℚ := 5

/-- The result dictionary of `check_conditions`. -/
structure CheckResult where
  triggered : Bool
  reasons : String
deriving DecidableEq, Repr

/-- `RealtimeSymbolMonitor.check_conditions` (`realtime_scanner.py`
lines 122-145): with market data available, run `check_all`; on a pass,
emit an alert only when no alert was ever emitted or strictly more than
the cooldown has elapsed, and then record `now` as the last alert time.
`data = none` embeds `get_market_data()` returning `None`, and `now`
the `datetime.now()` reads. -/
def check_conditions (m : RealtimeSymbolMonitor) (data : Option MarketData)
    (now : ℚ) : CheckResult × RealtimeSymbolMonitor :=
  match data with
  | none => (⟨false, ""⟩, m)
  | some d =>
    let r := check_all m.condition_set d
    let m1 := { m with condition_set := r.2 }
    if r.1 then
      match m1.last_alert_time with
      | none => (⟨true, get_trigger_summary r.2⟩, { m1 with last_alert_time := some now })
      | some t =>
        if now - t > m1.alert_cooldown_seconds then
          (⟨true, get_trigger_summary r.2⟩, { m1 with last_alert_time := some now })
        else
          (⟨false, ""⟩, m1)
    else
      (⟨false, ""⟩, m1)

end Scanner

namespace Backtest
/-!
Shallow embedding of the `BacktestEngine` of
`src/Self/RossCameron-Backtest.py`.  The backtester imports its
primitive checks from `RossCameron-Strategy.py`, which is absent from
the repository snapshot, so those primitives are taken as an explicit
interface record (`StrategyModule`).  Wall-clock times are rationals.
-/

/-- Modelled from the spec: the interface of the missing
`RossCameron-Strategy.py` module that `RossCameron-Backtest.py` imports
(`check_all_entry_conditions`, `calculate_entry_exit_prices`,
`calculate_position_size`, `calculate_commission`,
`check_stop_loss_hit`, `check_profit_target_hit`, `check_dynamic_exit`,
`check_end_of_day`).  The spec fixes only their shapes (§4.5, §4.6,
§9): the structural checks return booleans, entry analysis returns the
aggregate verdict with the pullback low, and price/size/commission
calculations return numbers; the thresholds themselves are treated as
configuration, so the functions are left abstract here. -/
structure StrategyModule where
  check_all_entry_conditions : List Bar → List Bar → ℚ → Bool × Option ℚ
  calculate_entry_exit_prices : ℚ → ℚ → Option (ℚ × ℚ × ℚ)
  calculate_position_size : ℚ → ℚ → ℚ → ℚ
  calculate_commission : ℚ → ℚ → Bool → ℚ
  check_stop_loss_hit : Bar → ℚ → Bool
  check_profit_target_hit : Bar → ℚ → Bool
  check_dynamic_exit : List Bar → Bool × String
  check_end_of_day : ℚ → Bool

/-- The `self.position` dictionary of `BacktestEngine`. -/
structure BtPosition where
  entry_price : ℚ
  stop_price : ℚ
  profit_price : ℚ
  shares : ℚ
  entry_time : ℚ
  entry_bar_idx : ℕ
  buy_commission : ℚ
deriving DecidableEq, Repr

/-- A completed-trade record as appended by `exit_position`. -/
structure BtTrade where
  entry_time : ℚ
  exit_time : ℚ
  entry_price : ℚ
  exit_price : ℚ
  shares : ℚ
  pnl : ℚ
  exit_reason : String
deriving DecidableEq, Repr

/-- The mutable state of `BacktestEngine`. -/
structure BacktestEngine where
  capital : ℚ
  position : Option BtPosition
  trades : List BtTrade
deriving DecidableEq, Repr

/-- `BacktestEngine.check_exit_conditions` (`RossCameron-Backtest.py`
lines 297-328): with an open position, test stop loss, profit target,
dynamic candle-under-candle exit on the bars since entry, then end of
day; the first hit wins. -/
def check_exit_conditions (S : StrategyModule) (pos? : Option BtPosition)
    (bars_10s : List Bar) (current_time : ℚ) : Option (ℚ × String) :=
  match pos? with
  | none => none
  | some pos =>
    let current_bar := bars_10s.getLastD default
    let current_price := current_bar.close
    if S.check_stop_loss_hit current_bar pos.stop_price then
      some (pos.stop_price, "STOP LOSS")
    else if S.check_profit_target_hit current_bar pos.profit_price then
      some (pos.profit_price, "PROFIT TARGET")
    else
      let bars_since_entry := bars_10s.drop pos.entry_bar_idx
      if 2 ≤ bars_since_entry.length ∧ (S.check_dynamic_exit bars_since_entry).1 then
        some (current_price, "DYNAMIC EXIT")
      else if S.check_end_of_day current_time then
        some (current_price, "END OF DAY")
      else none

/-- `BacktestEngine.check_entry_conditions` (lines 199-230): data
sufficiency, the strategy module's aggregated entry conditions, entry
price construction, position sizing and the capital check. -/
def check_entry_conditions (S : StrategyModule) (capital : ℚ)
    (bars_10s bars_1m : List Bar) : Option (ℚ × ℚ × ℚ × ℚ) :=
  if bars_10s.length < 30 ∨ bars_1m.length < 10 then none
  else
    let current_price := (bars_10s.getLastD default).close
    let r := S.check_all_entry_conditions bars_10s bars_1m current_price
    if r.1 = false then none
    else
      match r.2 with
      | none => none
      | some pullback_low =>
        match S.calculate_entry_exit_prices current_price pullback_low with
        | none => none
        | some (entry_price, stop_price, profit_price) =>
          let shares := S.calculate_position_size capital entry_price stop_price
          if capital < entry_price * shares then none
          else some (entry_price, stop_price, profit_price, shares)

/-- `BacktestEngine.enter_position` (lines 232-254). -/
def enter_position (S : StrategyModule) (st : BacktestEngine)
    (entry_price stop_price profit_price shares entry_time : ℚ)
    (entry_bar_idx : ℕ) : BacktestEngine :=
  let cost := entry_price * shares
  let buy_commission := S.calculate_commission shares cost false
  { capital := st.capital - (cost + buy_commission),
    position := some ⟨entry_price, stop_price, profit_price, shares,
      entry_time, entry_bar_idx, buy_commission⟩,
    trades := st.trades }

/-- `BacktestEngine.exit_position` (lines 256-295): realize the trade,
restore the capital and clear the position. -/
def exit_position (S : StrategyModule) (st : BacktestEngine)
    (exit_price exit_time : ℚ) (exit_reason : String) : BacktestEngine :=
  match st.position with
  | none => st
  | some pos =>
    let proceeds := exit_price * pos.shares
    let sell_commission := S.calculate_commission pos.shares proceeds true
    let pnl_gross := (exit_price - pos.entry_price) * pos.shares
    let pnl_net := pnl_gross - (pos.buy_commission + sell_commission)
    { capital := st.capital + (proceeds - sell_commission),
      position := none,
      trades := st.trades ++ [⟨pos.entry_time, exit_time, pos.entry_price,
        exit_price, pos.shares, pnl_net, exit_reason⟩] }

/-- One iteration of the `run_backtest` bar loop
(`RossCameron-Backtest.py` lines 385-397): exit conditions of an open
position are checked first; then, whenever no position remains open
(including the case where the exit just closed one), the entry
conditions are checked and a new position may be entered on the very
same step. -/
def run_backtest_step (S : StrategyModule) (st : BacktestEngine)
    (recent_10s recent_1m : List Bar) (i : ℕ) (current_time : ℚ) : BacktestEngine :=
  let st1 :=
    match st.position with
    | some _ =>
      match check_exit_conditions S st.position recent_10s current_time with
      | some (exit_price, exit_reason) =>
        exit_position S st exit_price current_time exit_reason
      | none => st
    | none => st
  match st1.position with
  | none =>
    match check_entry_conditions S st1.capital recent_10s recent_1m with
    | some (entry_price, stop_price, profit_price, shares) =>
      enter_position S st1 entry_price stop_price profit_price shares current_time i
    | none => st1
  | some _ => st1

end Backtest

/-! ### Concrete fixtures used by the claim theorems -/

/-- A 30-candle series realising the spec's pullback example literally:
rise to a high of 100, pullback to a low of 90, and a final bullish
candle with high 101 (a fresh absolute high). -/
def exSurge101 : List Bar :=
  ((List.range 10).map fun k => ⟨50, 50 + k, 49, 50 + k, 100⟩) ++
  [⟨99, 100, 98, 99, 100⟩] ++
  ((List.range 18).map fun _ => ⟨92, 93, 90, 91, 100⟩) ++
  [⟨95, 101, 94, 100, 100⟩]

/-- The same series with the final bullish candle's high at 94: above
the previous candle's high of 93 but below the surge high of 100. -/
def exSurge94 : List Bar :=
  ((List.range 10).map fun k => ⟨50, 50 + k, 49, 50 + k, 100⟩) ++
  [⟨99, 100, 98, 99, 100⟩] ++
  ((List.range 18).map fun _ => ⟨92, 93, 90, 91, 100⟩) ++
  [⟨92, 94, 91, 93, 100⟩]

/-- Two bars with previous low 9 and latest low 8, for the dynamic-exit
example. -/
def exExitBars : List Bar := [⟨10, 11, 9, 10, 50⟩, ⟨10, 11, 8, 9, 50⟩]

/-- Modelled from the spec: one admissible instantiation of the missing
`RossCameron-Strategy.py` primitives, used to exercise the backtest
loop on a step where the structural stop fires while the entry
conditions also pass.  Nothing in the spec ties the entry conditions to
the just-closed position: they depend only on the bar history, and the
backtester has no cooldown, so this behaviour is reachable. -/
def stratAlways : Backtest.StrategyModule where
  check_all_entry_conditions := fun _ _ _ => (true, some 1)
  calculate_entry_exit_prices := fun _ _ => some (1, 1, 2)
  calculate_position_size := fun _ _ _ => 1
  calculate_commission := fun _ _ _ => 0
  check_stop_loss_hit := fun _ _ => true
  check_profit_target_hit := fun _ _ => false
  check_dynamic_exit := fun _ => (false, "")
  check_end_of_day := fun _ => false

/-! ### Theorems -/

theorem foldl_qadd_eq_sum (f : Bar → ℚ) (l : List Bar) (acc : ℚ) :
    l.foldl (fun a b => a + f b) acc = acc + (l.map f).sum := by
  induction l generalizing acc with
  | nil => simp
  | cons b t ih => simp [ih]; ring

/-- C1 counterexample: on the spec's own example
(`balance=1000, entry=10, stop=9, maxRiskPct=0.10`) the code returns
`int(200/10) = 20` shares, not the claimed
`floor(1000·0.10/|10−9|) = 100`. -/
theorem C1_counterexample :
    Algo.calculate_position_size (some 1000) 10 9 (1/10) = 20 ∧ (20 : ℤ) ≠ 100 := by
  refine ⟨?_, by decide⟩
  with_unfolding_all rfl

/-- C1 (amended): `calculate_position_size` ignores the stop price and
the risk percentage entirely; it returns `0` exactly when the balance
is missing or non-positive, and otherwise sizes a fixed $200 simulated
trade, `max (int(200/entry)) 1` — never consulting
`|entry − stop|`. -/
theorem C1_amended (b entry stop stop' risk risk' : ℚ) :
    (Algo.calculate_position_size (some b) entry stop risk
      = Algo.calculate_position_size (some b) entry stop' risk') ∧
    Algo.calculate_position_size none entry stop risk = 0 ∧
    (Algo.calculate_position_size (some b) entry stop risk = 0 ↔ b ≤ 0) ∧
    (0 < b →
      Algo.calculate_position_size (some b) entry stop risk
        = max (pyInt (200 / entry)) 1) := by
  have hval : ∀ c : ℚ, ¬c ≤ 0 →
      Algo.calculate_position_size (some c) entry stop risk = max (pyInt (200 / entry)) 1 := by
    intro c hc
    simp only [Algo.calculate_position_size]
    rw [if_neg hc]
  refine ⟨rfl, rfl, ?_, fun hb => hval b (not_le.mpr hb)⟩
  by_cases hb : b ≤ 0
  · simp only [Algo.calculate_position_size, if_pos hb]
    simpa using hb
  · rw [hval b hb]
    simp only [iff_false_intro hb, iff_false]
    intro h
    have h1 : (1 : ℤ) ≤ max (pyInt (200 / entry)) 1 := le_max_right _ _
    omega

theorem C1_amended_witness :
    Algo.calculate_position_size (some 1000) 10 9 (1/10) = max (pyInt (200 / 10)) 1 :=
  (C1_amended 1000 10 9 9 (1/10) (1/10)).2.2.2 (by norm_num)

/-- C4: a pending entry strictly older than 300 seconds is cancelled —
the new state is idle (pending flag cleared, pending timestamp and the
recorded stop/profit prices removed, order id dropped), the original
entry order id is cancelled, and processing continues instead of
reporting `PENDING ENTRY`. -/
theorem C4_stale_pending_timeout (st : Algo.SymbolState) (now t0 : ℚ) (oid : ℕ)
    (hpend : st.pending_entry = true)
    (htime : st.pending_entry_time = some t0)
    (hoid : st.entry_order_id = some oid)
    (helapsed : now - t0 > 300) :
    let out := Algo.stale_pending_check st now
    out.1.pending_entry = false ∧
    out.1.pending_entry_time = none ∧
    out.1.stop_price = none ∧
    out.1.profit_target_price = none ∧
    out.1.entry_order_id = none ∧
    out.1.premarket_entry = false ∧
    out.2.1 = [oid] ∧
    out.2.2 = true := by
  unfold Algo.stale_pending_check
  rw [hpend, htime, hoid]
  simp [helapsed]

theorem C4_stale_pending_timeout_witness :
    let out := Algo.stale_pending_check ⟨true, some 0, some 7, true, some 5, some 11⟩ 301
    out.1.pending_entry = false ∧
    out.1.pending_entry_time = none ∧
    out.1.stop_price = none ∧
    out.1.profit_target_price = none ∧
    out.1.entry_order_id = none ∧
    out.1.premarket_entry = false ∧
    out.2.1 = [7] ∧
    out.2.2 = true :=
  C4_stale_pending_timeout ⟨true, some 0, some 7, true, some 5, some 11⟩ 301 0 7
    rfl rfl rfl (by norm_num)

/-- C7: `calculate_vwap` returns no value exactly when fewer than two
candles are given or the total volume is zero; otherwise it returns
`Σ(typicalPrice·volume)/Σ(volume)` with `typicalPrice =
(high+low+close)/3`; and on the spec's two-candle example it returns
15. -/
theorem C7_vwap (bars : List Bar) :
    (Algo.calculate_vwap bars = none ↔
      bars.length < 2 ∨ (bars.map Bar.volume).sum = 0) ∧
    (2 ≤ bars.length → (bars.map Bar.volume).sum ≠ 0 →
      Algo.calculate_vwap bars =
        some ((bars.map fun b => (b.high + b.low + b.close) / 3 * b.volume).sum
          / (bars.map Bar.volume).sum)) ∧
    Algo.calculate_vwap [⟨10, 10, 10, 10, 1⟩, ⟨20, 20, 20, 20, 1⟩] = some 15 := by
  have hvol : bars.foldl (fun a b => a + b.volume) 0 = (bars.map Bar.volume).sum := by
    simpa using foldl_qadd_eq_sum Bar.volume bars 0
  have hpv : bars.foldl (fun a b => a + (b.high + b.low + b.close) / 3 * b.volume) 0
      = (bars.map fun b => (b.high + b.low + b.close) / 3 * b.volume).sum := by
    simpa using foldl_qadd_eq_sum (fun b => (b.high + b.low + b.close) / 3 * b.volume) bars 0
  refine ⟨?_, ?_, by with_unfolding_all rfl⟩
  · unfold Algo.calculate_vwap
    by_cases hlen : bars.length < 2
    · simp [hlen]
    · rw [if_neg hlen, hvol]
      by_cases hv : (bars.map Bar.volume).sum = 0
      · simp [hv, hlen]
      · simp [hv, hlen]
  · intro hlen hvol0
    unfold Algo.calculate_vwap
    rw [if_neg (by omega), hvol, hpv, if_neg hvol0]

theorem C7_vwap_witness :
    Algo.calculate_vwap [⟨10, 10, 10, 10, 1⟩, ⟨20, 20, 20, 20, 1⟩] =
      some (([⟨10, 10, 10, 10, 1⟩, ⟨20, 20, 20, 20, 1⟩].map
          fun b : Bar => (b.high + b.low + b.close) / 3 * b.volume).sum
        / ([(⟨10, 10, 10, 10, 1⟩ : Bar), ⟨20, 20, 20, 20, 1⟩].map Bar.volume).sum) :=
  (C7_vwap [⟨10, 10, 10, 10, 1⟩, ⟨20, 20, 20, 20, 1⟩]).2.1 (by decide) (by norm_num)

/-- C9: with at least two bars the dynamic exit fires exactly when the
latest bar's low is strictly below the previous bar's low; with fewer
bars (or no bar data) it never fires; and on lows 8 (latest) vs 9
(previous) it fires with a reason naming both values. -/
theorem C9_dynamic_exit (bars : List Bar) :
    (2 ≤ bars.length →
      ((Algo.check_dynamic_exit (some bars)).1 = true ↔
        (bars.getLastD default).low < (bars.dropLast.getLastD default).low)) ∧
    (bars.length < 2 → (Algo.check_dynamic_exit (some bars)).1 = false) ∧
    (Algo.check_dynamic_exit none).1 = false ∧
    Algo.check_dynamic_exit (some exExitBars) =
      (true, "Candle Under Candle detected: Latest low $8.00 < Previous low $9.00") := by
  refine ⟨?_, ?_, rfl, by with_unfolding_all rfl⟩
  · intro hlen
    simp only [Algo.check_dynamic_exit]
    rw [if_neg (by omega : ¬bars.length < 2)]
    by_cases hlt : (bars.getLastD default).low < (bars.dropLast.getLastD default).low
    · rw [if_pos hlt]
      simpa using hlt
    · rw [if_neg hlt]
      simpa using hlt
  · intro hlen
    simp only [Algo.check_dynamic_exit]
    rw [if_pos hlen]

theorem C9_dynamic_exit_witness :
    (Algo.check_dynamic_exit (some exExitBars)).1 = true :=
  ((C9_dynamic_exit exExitBars).1 (by decide)).mpr (by decide)

/-- C10: the entry-side MACD condition requires 30 bars of history and
reports "Not enough data" below that, even though `calculate_macd`
itself already succeeds from the slow period of 26 bars on — so for
lengths 26 through 29 the condition fails while the underlying MACD
computation would succeed. -/
theorem C10_macd_history_gap (bars : List Bar) :
    (bars.length < 30 →
      Algo.check_macd_positive bars = (false, "Not enough data")) ∧
    (26 ≤ bars.length →
      (Algo.calculate_macd (bars.map Bar.close)).isSome = true) := by
  constructor
  · intro h
    unfold Algo.check_macd_positive
    rw [if_pos h]
  · intro h
    unfold Algo.calculate_macd
    rw [if_neg (by simpa using not_lt.mpr h)]
    rfl

theorem check_all_go_fst (d : Scanner.MarketData) (l : List Scanner.AlertCondition) :
    (Scanner.check_all_go d l).1 = l.all fun c => (c.check d).1 := by
  induction l with
  | nil => rfl
  | cons c rest ih =>
    simp only [Scanner.check_all_go, List.all_cons]
    cases hc : (c.check d).1 <;> simp [hc, ih]

theorem check_all_go_reasons (d : Scanner.MarketData) (l : List Scanner.AlertCondition) :
    (Scanner.check_all_go d l).2.2 =
      (l.takeWhile fun c => (c.check d).1).map fun c => (c.check d).2 := by
  induction l with
  | nil => rfl
  | cons c rest ih =>
    simp only [Scanner.check_all_go, List.takeWhile_cons]
    cases hc : (c.check d).1 <;> simp [hc, ih]

theorem check_all_go_conds_drop (d : Scanner.MarketData) (l : List Scanner.AlertCondition) :
    (Scanner.check_all_go d l).2.1.drop
        ((l.takeWhile fun c => (c.check d).1).length + 1) =
      l.drop ((l.takeWhile fun c => (c.check d).1).length + 1) := by
  induction l with
  | nil => rfl
  | cons c rest ih =>
    simp only [Scanner.check_all_go, List.takeWhile_cons]
    cases hc : (c.check d).1 <;> simp [hc, ih]

theorem check_all_go_checks (d : Scanner.MarketData) (l : List Scanner.AlertCondition) :
    (Scanner.check_all_go d l).2.1.map (fun c => c.check) = l.map fun c => c.check := by
  induction l with
  | nil => rfl
  | cons c rest ih =>
    cases hc : (c.check d).1 <;> simp [Scanner.check_all_go, hc, ih]

theorem check_all_go_fst_congr (d : Scanner.MarketData)
    (l₁ l₂ : List Scanner.AlertCondition)
    (h : l₁.map (fun c => c.check) = l₂.map fun c => c.check) :
    (Scanner.check_all_go d l₁).1 = (Scanner.check_all_go d l₂).1 := by
  have e : ∀ l : List Scanner.AlertCondition,
      (l.all fun c => (c.check d).1)
        = ((l.map fun c => c.check).all fun f => (f d).1) := by
    intro l
    induction l with
    | nil => rfl
    | cons c rest ih => simp [ih]
  rw [check_all_go_fst, check_all_go_fst, e, e, h]

theorem check_all_fst_stable (cs : Scanner.AlertConditionSet)
    (d d' : Scanner.MarketData) :
    (Scanner.check_all (Scanner.check_all cs d).2 d').1 = (Scanner.check_all cs d').1 := by
  simp only [Scanner.check_all]
  exact check_all_go_fst_congr d' _ _ (check_all_go_checks d cs.conditions)

/-- C6: `check_all` passes exactly when every condition passes; it
evaluates in registration order, short-circuiting at the first failure
so that the conditions after it are left untouched; the trigger-summary
list is rebuilt each cycle from the freshly evaluated passing prefix
only, so a stale reason of a later condition can never be reported;
and, concretely, when the first of three conditions fails, the third
condition's reason from a prior passing cycle does not appear in the
summary. -/
theorem C6_condition_set :
    (∀ (cs : Scanner.AlertConditionSet) (data : Scanner.MarketData),
      ((Scanner.check_all cs data).1 = cs.conditions.all fun c => (c.check data).1) ∧
      ((Scanner.check_all cs data).2.triggered_reasons =
        (cs.conditions.takeWhile fun c => (c.check data).1).map fun c => (c.check data).2) ∧
      ((Scanner.check_all cs data).2.conditions.drop
          ((cs.conditions.takeWhile fun c => (c.check data).1).length + 1) =
        cs.conditions.drop
          ((cs.conditions.takeWhile fun c => (c.check data).1).length + 1)) ∧
      (Scanner.get_trigger_summary (Scanner.check_all cs data).2 =
        String.intercalate " | "
          ((cs.conditions.takeWhile fun c => (c.check data).1).map fun c => (c.check data).2))) ∧
    (∀ d0 : Scanner.MarketData,
      (Scanner.check_all
          ⟨"s", [⟨"first", fun _ => (false, ""), "stale-R1"⟩,
                 ⟨"second", fun _ => (true, "R2"), "stale-R2"⟩,
                 ⟨"third", fun _ => (true, "R3"), "stale-R3"⟩],
           ["stale-R1", "stale-R2", "stale-R3"]⟩ d0).1 = false ∧
      Scanner.get_trigger_summary
        (Scanner.check_all
          ⟨"s", [⟨"first", fun _ => (false, ""), "stale-R1"⟩,
                 ⟨"second", fun _ => (true, "R2"), "stale-R2"⟩,
                 ⟨"third", fun _ => (true, "R3"), "stale-R3"⟩],
           ["stale-R1", "stale-R2", "stale-R3"]⟩ d0).2 = "" ∧
      ((Scanner.check_all
          ⟨"s", [⟨"first", fun _ => (false, ""), "stale-R1"⟩,
                 ⟨"second", fun _ => (true, "R2"), "stale-R2"⟩,
                 ⟨"third", fun _ => (true, "R3"), "stale-R3"⟩],
           ["stale-R1", "stale-R2", "stale-R3"]⟩ d0).2.conditions.map
        fun c => c.triggered_reason) = ["", "stale-R2", "stale-R3"]) := by
  constructor
  · intro cs data
    refine ⟨?_, ?_, ?_, ?_⟩
    · simpa only [Scanner.check_all] using check_all_go_fst data cs.conditions
    · simpa only [Scanner.check_all] using check_all_go_reasons data cs.conditions
    · simpa only [Scanner.check_all] using check_all_go_conds_drop data cs.conditions
    · simp only [Scanner.check_all, Scanner.get_trigger_summary]
      rw [check_all_go_reasons]
  · intro d0
    refine ⟨rfl, rfl, rfl⟩

theorem exit_position_clears (S : Backtest.StrategyModule)
    (st : Backtest.BacktestEngine) (px t : ℚ) (r : String)
    (pos : Backtest.BtPosition) (hp : st.position = some pos) :
    (Backtest.exit_position S st px t r).position = none ∧
    (Backtest.exit_position S st px t r).trades.length = st.trades.length + 1 := by
  simp [Backtest.exit_position, hp]

/-- C2 counterexample: one iteration of the backtest loop can close a
position and enter a new one on the very same bar — with the strategy
primitives instantiated so that the stop loss fires and the entry
conditions pass, the step produces one completed trade with exit time 7
(the current step's time) and leaves a freshly opened position whose
entry time is that same 7, refuting "no new position is ever entered on
the same bar/step on which a position was just closed". -/
theorem C2_counterexample :
    (Backtest.run_backtest_step stratAlways
      ⟨100, some ⟨1, 1, 2, 1, 3, 0, 0⟩, []⟩
      (List.replicate 30 ⟨1, 1, 1, 1, 1⟩) (List.replicate 10 ⟨1, 1, 1, 1, 1⟩)
      5 7).trades.length = 1 ∧
    ((Backtest.run_backtest_step stratAlways
      ⟨100, some ⟨1, 1, 2, 1, 3, 0, 0⟩, []⟩
      (List.replicate 30 ⟨1, 1, 1, 1, 1⟩) (List.replicate 10 ⟨1, 1, 1, 1, 1⟩)
      5 7).trades.map Backtest.BtTrade.exit_time) = [7] ∧
    ((Backtest.run_backtest_step stratAlways
      ⟨100, some ⟨1, 1, 2, 1, 3, 0, 0⟩, []⟩
      (List.replicate 30 ⟨1, 1, 1, 1, 1⟩) (List.replicate 10 ⟨1, 1, 1, 1, 1⟩)
      5 7).position.map Backtest.BtPosition.entry_time) = some 7 := by
  refine ⟨?_, ?_, ?_⟩ <;> with_unfolding_all rfl

/-- C2 (amended): in each step of the backtest loop the exit conditions
of an open position are evaluated before the entry conditions — the
entry decision is taken on the post-exit state — but when an exit fires
and the entry conditions pass on the same bar, a new position IS
entered on that same step (the loop re-checks entries whenever no
position remains open, with no same-bar exclusion). -/
theorem C2_exit_before_entry (S : Backtest.StrategyModule)
    (st : Backtest.BacktestEngine) (recent_10s recent_1m : List Bar)
    (i : ℕ) (t px : ℚ) (r : String) (plan : ℚ × ℚ × ℚ × ℚ)
    (pos : Backtest.BtPosition)
    (hpos : st.position = some pos)
    (hexit : Backtest.check_exit_conditions S st.position recent_10s t = some (px, r))
    (hentry : Backtest.check_entry_conditions S
        (Backtest.exit_position S st px t r).capital recent_10s recent_1m = some plan) :
    (Backtest.run_backtest_step S st recent_10s recent_1m i t).trades.length
        = st.trades.length + 1 ∧
    (Backtest.run_backtest_step S st recent_10s recent_1m i t).position
        = some ⟨plan.1, plan.2.1, plan.2.2.1, plan.2.2.2, t, i,
            S.calculate_commission plan.2.2.2 (plan.1 * plan.2.2.2) false⟩ := by
  obtain ⟨e, sp, pp, sh⟩ := plan
  rw [hpos] at hexit
  have hclear := exit_position_clears S st px t r pos hpos
  simp only [Backtest.run_backtest_step, hpos, hexit, hclear.1, hentry,
    Backtest.enter_position]
  exact ⟨hclear.2, trivial⟩

theorem C2_exit_before_entry_witness :
    (Backtest.run_backtest_step stratAlways
      ⟨100, some ⟨1, 1, 2, 1, 3, 0, 0⟩, []⟩
      (List.replicate 30 ⟨1, 1, 1, 1, 1⟩) (List.replicate 10 ⟨1, 1, 1, 1, 1⟩)
      5 7).trades.length = ([] : List Backtest.BtTrade).length + 1 ∧
    (Backtest.run_backtest_step stratAlways
      ⟨100, some ⟨1, 1, 2, 1, 3, 0, 0⟩, []⟩
      (List.replicate 30 ⟨1, 1, 1, 1, 1⟩) (List.replicate 10 ⟨1, 1, 1, 1, 1⟩)
      5 7).position = some ⟨1, 1, 2, 1, 7, 5,
        stratAlways.calculate_commission 1 (1 * 1) false⟩ :=
  C2_exit_before_entry stratAlways ⟨100, some ⟨1, 1, 2, 1, 3, 0, 0⟩, []⟩
    (List.replicate 30 ⟨1, 1, 1, 1, 1⟩) (List.replicate 10 ⟨1, 1, 1, 1, 1⟩)
    5 7 1 "STOP LOSS" (1, 1, 2, 1) ⟨1, 1, 2, 1, 3, 0, 0⟩
    rfl (by with_unfolding_all rfl) (by with_unfolding_all rfl)

theorem pullbackScan_fst (ls : List ℚ) (m : ℚ) (det : Bool) :
    (Algo.pullbackScan m det ls).1 = ls.foldl min m := by
  induction ls generalizing m det with
  | nil => rfl
  | cons l ls ih =>
    simp only [Algo.pullbackScan, List.foldl_cons]
    by_cases h : l < m
    · rw [if_pos h, ih, min_eq_right (le_of_lt h)]
    · rw [if_neg h, ih, min_eq_left (le_of_not_lt h)]

theorem pullbackScan_snd_true (ls : List ℚ) (m : ℚ) :
    (Algo.pullbackScan m true ls).2 = true := by
  induction ls generalizing m with
  | nil => rfl
  | cons l ls ih =>
    simp only [Algo.pullbackScan]
    by_cases h : l < m
    · rw [if_pos h]
      exact ih l
    · rw [if_neg h]
      exact ih m

theorem pullbackScan_snd_iff (ls : List ℚ) (m : ℚ) :
    (Algo.pullbackScan m false ls).2 = true ↔ ∃ l ∈ ls, l < m := by
  induction ls generalizing m with
  | nil => simp [Algo.pullbackScan]
  | cons l ls ih =>
    simp only [Algo.pullbackScan]
    by_cases h : l < m
    · rw [if_pos h]
      simp only [pullbackScan_snd_true, true_iff]
      exact ⟨l, List.mem_cons_self l ls, h⟩
    · rw [if_neg h, ih]
      constructor
      · rintro ⟨x, hx, hlt⟩
        exact ⟨x, List.mem_cons_of_mem _ hx, hlt⟩
      · rintro ⟨x, hx, hlt⟩
        rcases List.mem_cons.mp hx with rfl | hx
        · exact absurd hlt h
        · exact ⟨x, hx, hlt⟩

theorem foldl_min_le_init (ls : List ℚ) (m : ℚ) : ls.foldl min m ≤ m := by
  induction ls generalizing m with
  | nil => simp
  | cons l ls ih =>
    simp only [List.foldl_cons]
    exact le_trans (ih (min m l)) (min_le_left m l)

theorem foldl_min_le_mem (ls : List ℚ) (m : ℚ) : ∀ l ∈ ls, ls.foldl min m ≤ l := by
  induction ls generalizing m with
  | nil => simp
  | cons a ls ih =>
    intro l hl
    rcases List.mem_cons.mp hl with rfl | hl
    · simp only [List.foldl_cons]
      exact le_trans (foldl_min_le_init ls (min m l)) (min_le_right m l)
    · simp only [List.foldl_cons]
      exact ih (min m a) l hl

theorem foldl_min_mem (ls : List ℚ) (m : ℚ) :
    ls.foldl min m = m ∨ ls.foldl min m ∈ ls := by
  induction ls generalizing m with
  | nil => exact Or.inl rfl
  | cons a ls ih =>
    simp only [List.foldl_cons]
    rcases le_total m a with hma | ham
    · rw [min_eq_left hma]
      rcases ih m with h | h
      · exact Or.inl h
      · exact Or.inr (List.mem_cons_of_mem a h)
    · rw [min_eq_right ham]
      rcases ih a with h | h
      · rw [h]
        exact Or.inr (List.mem_cons_self a ls)
      · exact Or.inr (List.mem_cons_of_mem a h)

set_option maxRecDepth 10000 in
/-- C5 counterexample: on the spec's example series — rising to a high
of 100, dipping to 90, then a final bullish candle with high 101 — the
detector does NOT succeed: the final candle's high is then the maximum
of the whole window, its (last-occurrence) peak index sits at the very
end, and the code returns the "still at high" failure with no pullback
low, instead of the claimed success with pullback low 90. -/
theorem C5_counterexample :
    Algo.detect_pullback_and_new_high exSurge101 =
      (false, "No pullback detected yet (still at high)", none) := by
  with_unfolding_all rfl

/-- C5 (amended): for at least 30 candles, over the window of the last
60 candles: whenever the last occurrence of the window's maximum high
lies earlier than the final two positions (index `len − 2` itself
counts as failure — ties favour waiting) and some strictly lower low
occurred after that peak, the detector succeeds if and only if the
final candle's high strictly exceeds the previous candle's high and the
final candle closes strictly above its open, and on success it returns
the minimum low after the peak as the pullback low.  (A final candle
whose high exceeds the window's previous maximum — such as the spec's
101 > 100 example — therefore never succeeds: the peak index is then at
the end.) -/
theorem C5_amended (bars recent : List Bar) (mh : ℚ) (idx : ℕ) (lows : List ℚ)
    (hrecent : recent = bars.drop (bars.length - 60))
    (hmh : mh = Algo.maxHigh recent)
    (hidxdef : idx = Algo.maxHighIdx recent)
    (hlows : lows = (recent.drop (idx + 1)).map Bar.low)
    (h30 : 30 ≤ bars.length)
    (hidx : idx + 2 < recent.length)
    (hdip : ∃ l ∈ lows, l < mh) :
    ((Algo.detect_pullback_and_new_high bars).1 = true ↔
      ((recent.dropLast.getLastD default).high < (recent.getLastD default).high ∧
        (recent.getLastD default).«open» < (recent.getLastD default).close)) ∧
    ((Algo.detect_pullback_and_new_high bars).1 = true →
      ∃ q, (Algo.detect_pullback_and_new_high bars).2.2 = some q ∧
        q ∈ lows ∧ ∀ l ∈ lows, q ≤ l) := by
  subst hrecent
  subst hmh
  subst hidxdef
  subst hlows
  simp only [Algo.detect_pullback_and_new_high]
  rw [if_neg (by omega : ¬bars.length < 30)]
  rw [if_neg (by omega :
    ¬(bars.drop (bars.length - 60)).length - 2 ≤
      Algo.maxHighIdx (bars.drop (bars.length - 60)))]
  have hsnd : (Algo.pullbackScan (Algo.maxHigh (bars.drop (bars.length - 60))) false
      (((bars.drop (bars.length - 60)).drop
        (Algo.maxHighIdx (bars.drop (bars.length - 60)) + 1)).map Bar.low)).2 = true :=
    (pullbackScan_snd_iff _ _).mpr hdip
  simp only [hsnd]
  rw [if_neg (show ¬(true = false) by simp)]
  by_cases hfinal :
      ((bars.drop (bars.length - 60)).dropLast.getLastD default).high <
        ((bars.drop (bars.length - 60)).getLastD default).high ∧
      ((bars.drop (bars.length - 60)).getLastD default).«open» <
        ((bars.drop (bars.length - 60)).getLastD default).close
  · rw [if_pos hfinal]
    refine ⟨by simpa using hfinal, fun _ => ?_⟩
    refine ⟨(Algo.pullbackScan (Algo.maxHigh (bars.drop (bars.length - 60))) false
      (((bars.drop (bars.length - 60)).drop
        (Algo.maxHighIdx (bars.drop (bars.length - 60)) + 1)).map Bar.low)).1,
      rfl, ?_, ?_⟩
    · rw [pullbackScan_fst]
      obtain ⟨l0, hl0, hlt⟩ := hdip
      rcases foldl_min_mem (((bars.drop (bars.length - 60)).drop
          (Algo.maxHighIdx (bars.drop (bars.length - 60)) + 1)).map Bar.low)
          (Algo.maxHigh (bars.drop (bars.length - 60))) with h | h
      · exfalso
        have hle := foldl_min_le_mem (((bars.drop (bars.length - 60)).drop
            (Algo.maxHighIdx (bars.drop (bars.length - 60)) + 1)).map Bar.low)
            (Algo.maxHigh (bars.drop (bars.length - 60))) l0 hl0
        rw [h] at hle
        exact absurd (lt_of_le_of_lt hle hlt) (lt_irrefl _)
      · exact h
    · rw [pullbackScan_fst]
      exact foldl_min_le_mem _ _
  · rw [if_neg hfinal]
    refine ⟨by simpa using hfinal, fun h => absurd h (by simp)⟩

set_option maxRecDepth 10000 in
theorem C5_amended_witness :
    (Algo.detect_pullback_and_new_high exSurge94).1 = true :=
  ((C5_amended exSurge94 _ _ _ _ rfl rfl rfl rfl
      (by with_unfolding_all decide) (by with_unfolding_all decide)
      (by with_unfolding_all decide)).1).mpr
    (by with_unfolding_all decide)

theorem check_conditions_triggered_iff (m : Scanner.RealtimeSymbolMonitor)
    (d : Scanner.MarketData) (now : ℚ) :
    (Scanner.check_conditions m (some d) now).1.triggered = true ↔
      ((Scanner.check_all m.condition_set d).1 = true ∧
        (m.last_alert_time = none ∨
          ∃ t, m.last_alert_time = some t ∧ now - t > m.alert_cooldown_seconds)) := by
  simp only [Scanner.check_conditions]
  cases hr : (Scanner.check_all m.condition_set d).1
  · simp [hr]
  · cases hlast : m.last_alert_time with
    | none => simp [hlast]
    | some t =>
      by_cases hgt : now - t > m.alert_cooldown_seconds
      · simp [hlast, hgt]
      · simp [hlast, hgt]

theorem check_conditions_state (m : Scanner.RealtimeSymbolMonitor)
    (d : Scanner.MarketData) (now : ℚ) :
    ((Scanner.check_conditions m (some d) now).1.triggered = true →
      (Scanner.check_conditions m (some d) now).2.last_alert_time = some now) ∧
    ((Scanner.check_conditions m (some d) now).1.triggered = false →
      (Scanner.check_conditions m (some d) now).2.last_alert_time = m.last_alert_time) ∧
    (Scanner.check_conditions m (some d) now).2.condition_set =
      (Scanner.check_all m.condition_set d).2 ∧
    (Scanner.check_conditions m (some d) now).2.alert_cooldown_seconds =
      m.alert_cooldown_seconds := by
  simp only [Scanner.check_conditions]
  cases hr : (Scanner.check_all m.condition_set d).1
  · simp
  · cases hlast : m.last_alert_time with
    | none => simp
    | some t =>
      by_cases hgt : now - t > m.alert_cooldown_seconds
      · simp [hgt]
      · simp [hgt, hlast]

/-- C3: the per-symbol evaluator emits an alert exactly when the
condition set passes and either no alert was ever emitted or strictly
more than the cooldown (5 seconds) has elapsed since the last one, and
it then records `now` as the last alert time; consequently, with all
conditions passing throughout, updates at `t₀` and `t₀+1` produce
exactly one alert (the second is suppressed) and a third update at
`t₀+6` produces a second alert. -/
theorem C3_cooldown :
    (∀ (m : Scanner.RealtimeSymbolMonitor) (d : Scanner.MarketData) (now : ℚ),
      m.alert_cooldown_seconds = 5 →
      (((Scanner.check_conditions m (some d) now).1.triggered = true) ↔
        ((Scanner.check_all m.condition_set d).1 = true ∧
          (m.last_alert_time = none ∨
            ∃ t, m.last_alert_time = some t ∧ now - t > 5))) ∧
      ((Scanner.check_conditions m (some d) now).1.triggered = true →
        (Scanner.check_conditions m (some d) now).2.last_alert_time = some now)) ∧
    (∀ (m0 : Scanner.RealtimeSymbolMonitor) (d : Scanner.MarketData) (t0 : ℚ),
      m0.alert_cooldown_seconds = 5 →
      m0.last_alert_time = none →
      (Scanner.check_all m0.condition_set d).1 = true →
      (Scanner.check_conditions m0 (some d) t0).1.triggered = true ∧
      (Scanner.check_conditions (Scanner.check_conditions m0 (some d) t0).2
          (some d) (t0 + 1)).1.triggered = false ∧
      (Scanner.check_conditions
          (Scanner.check_conditions (Scanner.check_conditions m0 (some d) t0).2
            (some d) (t0 + 1)).2
          (some d) (t0 + 6)).1.triggered = true) := by
  constructor
  · intro m d now hcd
    constructor
    · rw [check_conditions_triggered_iff, hcd]
    · exact (check_conditions_state m d now).1
  · intro m0 d t0 hcd hlast hpass
    set m1 := (Scanner.check_conditions m0 (some d) t0).2 with hm1
    have h1 : (Scanner.check_conditions m0 (some d) t0).1.triggered = true := by
      rw [check_conditions_triggered_iff]
      exact ⟨hpass, Or.inl hlast⟩
    have hm1last : m1.last_alert_time = some t0 :=
      (check_conditions_state m0 d t0).1 h1
    have hm1cs : m1.condition_set = (Scanner.check_all m0.condition_set d).2 :=
      (check_conditions_state m0 d t0).2.2.1
    have hm1cd : m1.alert_cooldown_seconds = 5 := by
      rw [(check_conditions_state m0 d t0).2.2.2, hcd]
    have hm1pass : (Scanner.check_all m1.condition_set d).1 = true := by
      rw [hm1cs, check_all_fst_stable]
      exact hpass
    have h2 : (Scanner.check_conditions m1 (some d) (t0 + 1)).1.triggered = false := by
      rw [← Bool.not_eq_true]
      rw [check_conditions_triggered_iff]
      rintro ⟨-, hnone | ⟨t, ht, hgt⟩⟩
      · rw [hm1last] at hnone
        exact Option.noConfusion hnone
      · rw [hm1last] at ht
        injection ht with ht
        rw [← ht, hm1cd] at hgt
        have : t0 + 1 - t0 = 1 := by ring
        rw [this] at hgt
        norm_num at hgt
    set m2 := (Scanner.check_conditions m1 (some d) (t0 + 1)).2 with hm2
    have hm2last : m2.last_alert_time = some t0 := by
      rw [(check_conditions_state m1 d (t0 + 1)).2.1 h2, hm1last]
    have hm2cs : m2.condition_set = (Scanner.check_all m1.condition_set d).2 :=
      (check_conditions_state m1 d (t0 + 1)).2.2.1
    have hm2cd : m2.alert_cooldown_seconds = 5 := by
      rw [(check_conditions_state m1 d (t0 + 1)).2.2.2, hm1cd]
    have hm2pass : (Scanner.check_all m2.condition_set d).1 = true := by
      rw [hm2cs, check_all_fst_stable]
      exact hm1pass
    have h3 : (Scanner.check_conditions m2 (some d) (t0 + 6)).1.triggered = true := by
      rw [check_conditions_triggered_iff]
      refine ⟨hm2pass, Or.inr ⟨t0, hm2last, ?_⟩⟩
      rw [hm2cd]
      have : t0 + 6 - t0 = 6 := by ring
      rw [this]
      norm_num
    exact ⟨h1, h2, h3⟩

theorem C3_cooldown_witness :
    (Scanner.check_conditions
      ⟨⟨"w", [Scanner.PriceAboveVWAPCondition], []⟩, none, 5⟩
      (some ⟨"SYM", 10, 1, 5, 0, [], []⟩) 0).1.triggered = true :=
  (C3_cooldown.2 ⟨⟨"w", [Scanner.PriceAboveVWAPCondition], []⟩, none, 5⟩
    ⟨"SYM", 10, 1, 5, 0, [], []⟩ 0 rfl rfl
    (by with_unfolding_all rfl)).1

theorem C6_condition_set_witness :
    (Scanner.check_all
      ⟨"s", [⟨"first", fun _ => (false, ""), "stale-R1"⟩,
             ⟨"second", fun _ => (true, "R2"), "stale-R2"⟩,
             ⟨"third", fun _ => (true, "R3"), "stale-R3"⟩],
       ["stale-R1", "stale-R2", "stale-R3"]⟩
      ⟨"SYM", 10, 1, 5, 0, [], []⟩).1 = false :=
  (C6_condition_set.2 ⟨"SYM", 10, 1, 5, 0, [], []⟩).1

theorem emaFrom_const (alpha c : ℚ) (n : ℕ) :
    Algo.emaFrom alpha c (List.replicate n c) = List.replicate n c := by
  induction n with
  | zero => rfl
  | succ k ih =>
    have h : c * alpha + c * (1 - alpha) = c := by ring
    simp only [List.replicate_succ, Algo.emaFrom, h, ih]

theorem emaSeries_const (alpha c : ℚ) (n : ℕ) :
    Algo.emaSeries alpha (List.replicate n c) = List.replicate n c := by
  cases n with
  | zero => rfl
  | succ k =>
    simp only [List.replicate_succ, Algo.emaSeries, emaFrom_const]

theorem zipWith_sub_replicate (n : ℕ) (c : ℚ) :
    List.zipWith (· - ·) (List.replicate n c) (List.replicate n c) = List.replicate n 0 := by
  induction n with
  | zero => rfl
  | succ k ih => simp [List.replicate_succ, ih]

theorem getLastD_replicate_zero (n : ℕ) :
    (List.replicate n (0 : ℚ)).getLastD 0 = 0 := by
  induction n with
  | zero => rfl
  | succ k ih => rw [List.replicate_succ, List.getLastD_cons, ih]

/-- C8: `calculate_macd` reports insufficient data exactly below the
slow period of 26 closes; from 26 closes on it returns the triple at
the latest index; and on every constant-price series of sufficient
length the MACD line, signal line and histogram are all exactly 0. -/
theorem C8_macd (closes : List ℚ) (c : ℚ) (n : ℕ) :
    (closes.length < 26 → Algo.calculate_macd closes = none) ∧
    (26 ≤ closes.length → (Algo.calculate_macd closes).isSome = true) ∧
    (26 ≤ n → Algo.calculate_macd (List.replicate n c) = some (0, 0, 0)) := by
  refine ⟨?_, ?_, ?_⟩
  · intro h
    unfold Algo.calculate_macd
    rw [if_pos h]
  · intro h
    unfold Algo.calculate_macd
    rw [if_neg (not_lt.mpr h)]
    rfl
  · intro h
    unfold Algo.calculate_macd
    rw [if_neg (by simpa using not_lt.mpr h)]
    simp only [emaSeries_const, zipWith_sub_replicate, getLastD_replicate_zero]

theorem C8_macd_witness :
    Algo.calculate_macd (List.replicate 26 (5 : ℚ)) = none ∨
    Algo.calculate_macd (List.replicate 26 (5 : ℚ)) = some (0, 0, 0) :=
  Or.inr ((C8_macd (List.replicate 26 5) 5 26).2.2 (by norm_num))

theorem C10_macd_history_gap_witness :
    Algo.check_macd_positive (List.replicate 29 (⟨5, 5, 5, 5, 1⟩ : Bar))
        = (false, "Not enough data") ∧
    (Algo.calculate_macd ((List.replicate 29 (⟨5, 5, 5, 5, 1⟩ : Bar)).map Bar.close)).isSome
        = true :=
  ⟨(C10_macd_history_gap (List.replicate 29 ⟨5, 5, 5, 5, 1⟩)).1 (by simp),
   (C10_macd_history_gap (List.replicate 29 ⟨5, 5, 5, 5, 1⟩)).2 (by simp)⟩



